import Mathlib

/-!
Verification development for the NUT configurator core
(`src/nut_configurator.cc`): candidate classification, best-candidate
selection, configuration rendering, hash-based change detection, and the
commit reconciliation step, shallowly embedded as executable Lean
definitions.
-/

namespace FtyNut

/-!
## Regular expressions

The source classifies candidate configuration blocks with POSIX extended
regular expressions compiled by `cxxtools::Regex` with
`REG_EXTENDED | REG_ICASE` and matched unanchored by `regexec`.  We embed
the fragment of ERE the source uses (literals, character classes,
concatenation, alternation, repetition) and decide unanchored boolean
matching with Brzozowski derivatives.  `REG_ICASE` is modelled by
lowercasing the subject text (the patterns' literals are already lower
case, matching ASCII case folding of the C locale).
-/

inductive RE : Type where
  | fail : RE
  | eps : RE
  | cls : (Char → Bool) → RE
  | cat : RE → RE → RE
  | alt : RE → RE → RE
  | star : RE → RE

/-- Does the regex accept the empty string? -/
def RE.nullable : RE → Bool
  | .fail => false
  | .eps => true
  | .cls _ => false
  | .cat a b => a.nullable && b.nullable
  | .alt a b => a.nullable || b.nullable
  | .star _ => true

/-- Smart concatenation constructor (keeps derivative terms small). -/
def RE.mkCat : RE → RE → RE
  | .fail, _ => .fail
  | .eps, b => b
  | a, b => .cat a b

/-- Smart alternation constructor (keeps derivative terms small). -/
def RE.mkAlt : RE → RE → RE
  | .fail, b => b
  | a, .fail => a
  | a, b => .alt a b

/-- Brzozowski derivative of a regex with respect to one character. -/
def RE.deriv : RE → Char → RE
  | .fail, _ => .fail
  | .eps, _ => .fail
  | .cls p, c => if p c then .eps else .fail
  | .cat a b, c =>
      if a.nullable then .mkAlt (.mkCat (a.deriv c) b) (b.deriv c)
      else .mkCat (a.deriv c) b
  | .alt a b, c => .mkAlt (a.deriv c) (b.deriv c)
  | .star a, c => .mkCat (a.deriv c) (.star a)

/-- Does the regex match some prefix of the character list? -/
def RE.matchesPre : RE → List Char → Bool
  | r, [] => r.nullable
  | r, c :: cs => r.nullable || (r.deriv c).matchesPre cs

/-- Does the regex match somewhere inside the character list
(`regexec`'s unanchored search, as a boolean)? -/
def RE.searchL : RE → List Char → Bool
  | r, [] => r.nullable
  | r, c :: cs => r.matchesPre (c :: cs) || r.searchL cs

/-- Single literal character. -/
def RE.ch (c : Char) : RE := .cls (fun d => d == c)

/-- Literal string. -/
def RE.lit (s : String) : RE := s.data.foldr (fun c r => .cat (.ch c) r) .eps

/-- Sequence of regexes. -/
def RE.seq (l : List RE) : RE := l.foldr RE.cat RE.eps

/-- First-match alternation over a list of regexes. -/
def RE.altList : List RE → RE
  | [] => .fail
  | [r] => r
  | r :: rs => .alt r (RE.altList rs)

/-- POSIX `.`: any character. -/
def RE.anyc : RE := .cls (fun _ => true)

/-- POSIX `[[:blank:]]`: space or tab. -/
def RE.blankc : RE := .cls (fun c => c == ' ' || c == '\t')

/-- POSIX `[^"]`: any character other than a double quote. -/
def RE.notQuote : RE := .cls (fun c => c != '"')

/-- `r+`. -/
def RE.plus (r : RE) : RE := .cat r (.star r)

/-- `r?`. -/
def RE.opt (r : RE) : RE := .alt r .eps

/-- Case-insensitive unanchored search of a pattern in a string
(`cxxtools::Regex::match` with `REG_ICASE`). -/
def reSearch (r : RE) (s : String) : Bool :=
  r.searchL (s.data.map Char.toLower)

/-!
## The classification patterns of `nut_configurator.cc`
-/

/-- `[[:blank:]]driver[[:blank:]]+=[[:blank:]]+"netxml-ups"` -/
def NUTConfigXMLPattern : RE :=
  .seq [.blankc, .lit "driver", .plus .blankc, .ch '=', .plus .blankc,
        .ch '"', .lit "netxml-ups", .ch '"']

/-- The EPDU MIB names enumerated in `NUTConfigEpduPattern` (lower case,
matching `REG_ICASE` folding). -/
def epduMibNames : List String :=
  ["eaton_epdu", "aphel_genesisii", "aphel_revelation",
   "pulizzi_switched1", "pulizzi_switched2", "emerson_avocent_pdu"]

/-- `[[:blank:]](mibs[[:blank:]]+=[[:blank:]]+"(eaton_epdu|…)"|`
`desc[[:blank:]]+=[[:blank:]]+"[^"]+ epdu [^"]+")` -/
def NUTConfigEpduPattern : RE :=
  .cat .blankc (.alt
    (.seq [.lit "mibs", .plus .blankc, .ch '=', .plus .blankc, .ch '"',
           RE.altList (epduMibNames.map RE.lit), .ch '"'])
    (.seq [.lit "desc", .plus .blankc, .ch '=', .plus .blankc, .ch '"',
           .plus .notQuote, .lit " epdu ", .plus .notQuote, .ch '"']))

/-- `[[:blank:]]driver[[:blank:]]+=[[:blank:]]+"snmp-ups(-old|-dmf)?"` -/
def NUTConfigCanSnmpPattern : RE :=
  .seq [.blankc, .lit "driver", .plus .blankc, .ch '=', .plus .blankc,
        .ch '"', .lit "snmp-ups", .opt (.alt (.lit "-old") (.lit "-dmf")),
        .ch '"']

/-- `[[:blank:]]mibs[[:blank:]]*=[[:blank:]]*"[^"]*ats[^"]*"` -/
def NUTConfigATSPattern : RE :=
  .seq [.blankc, .lit "mibs", .star .blankc, .ch '=', .star .blankc,
        .ch '"', .star .notQuote, .lit "ats", .star .notQuote, .ch '"']

/-!
## Classifier and Selector (`stringMatch` … `selectBest`)
-/

/-- `NUTConfigurator::stringMatch`: first text matching the pattern
(the source returns an iterator; we return the pointed-to candidate,
`none` standing for the end iterator). -/
def stringMatch (texts : List String) (pat : RE) : Option String :=
  texts.find? (fun t => reSearch pat t)

/-- `NUTConfigurator::match`. -/
def matchAny (texts : List String) (pat : RE) : Bool :=
  (stringMatch texts pat).isSome

/-- `NUTConfigurator::isEpdu`. -/
def isEpdu (texts : List String) : Bool := matchAny texts NUTConfigEpduPattern

/-- `NUTConfigurator::isAts`. -/
def isAts (texts : List String) : Bool := matchAny texts NUTConfigATSPattern

/-- `NUTConfigurator::isUps`. -/
def isUps (texts : List String) : Bool := !(isEpdu texts || isAts texts)

/-- `NUTConfigurator::canSnmp`. -/
def canSnmp (texts : List String) : Bool := matchAny texts NUTConfigCanSnmpPattern

/-- `NUTConfigurator::canXml`. -/
def canXml (texts : List String) : Bool := matchAny texts NUTConfigXMLPattern

/-- The `snmpMibPriority` list `{"pw", "mge", ".+"}`; each entry is spliced
into a regex, so the catch-all entry is the regex `.+`. -/
def snmpMibPriority : List RE :=
  [.lit "pw", .lit "mge", .plus .anyc]

/-- The pattern `.+[[:blank:]]mibs[[:blank:]]+=[[:blank:]]+"<mib>"` built in
`getBestSnmpMib` for a priority entry. -/
def mibsPattern (m : RE) : RE :=
  .seq [.plus .anyc, .blankc, .lit "mibs", .plus .blankc, .ch '=',
        .plus .blankc, .ch '"', m, .ch '"']

/-- `NUTConfigurator::getBestSnmpMib`: first priority entry whose pattern
matches some candidate; returns that candidate. -/
def getBestSnmpMib (configs : List String) : Option String :=
  snmpMibPriority.findSome? (fun m => stringMatch configs (mibsPattern m))

/-- `NUTConfigurator::selectBest`. -/
def selectBest (configs : List String) : Option String :=
  if configs.length ≤ 1 then configs.head?
  else if canSnmp configs && (isEpdu configs || isAts configs) then
    getBestSnmpMib configs
  else if canXml configs then stringMatch configs NUTConfigXMLPattern
  else getBestSnmpMib configs

/-- An SNMP EPDU candidate whose MIB field is `"pw"`. -/
def candPw : String :=
  " driver = \"snmp-ups\"\n mibs = \"pw\"\n desc = \"a epdu b\"\n"

/-- An SNMP candidate whose MIB field is `"mge"`. -/
def candMge : String :=
  " driver = \"snmp-ups\"\n mibs = \"mge\"\n"

/-!
## Theorems

One theorem per claim about the specification, with concrete witnesses
exercising each hypothesis-bearing theorem.
-/

/-- C2: for every CandidateSet with 0 or 1 members, `selectBest` returns
that set's sole member unchanged (the none sentinel for the empty set),
regardless of the member's content: the result is the head of the list,
computed without consulting any classification predicate. -/
theorem selectBest_small_set (configs : List String) (h : configs.length ≤ 1) :
    selectBest configs = configs.head? := by
  simp [selectBest, h]

theorem selectBest_small_set_witness :
    selectBest ["no driver keys at all"] = some "no driver keys at all" :=
  (selectBest_small_set ["no driver keys at all"] (by decide)).trans rfl

/-- C1: for every CandidateSet with more than one member, `selectBest`
applies the fixed priority policy — SNMP-capable EPDU/ATS sets pick the
MIB-priority result, else an XML-capable set picks the first candidate
matching the XML-driver pattern, else the MIB-priority result — and the
MIB-priority search tries the pattern for `pw`, then `mge`, then the
catch-all `.+`, returning the first candidate that matches. -/
theorem selectBest_priority_policy (configs : List String)
    (h : 1 < configs.length) :
    selectBest configs =
      (if canSnmp configs && (isEpdu configs || isAts configs) then
         getBestSnmpMib configs
       else if canXml configs then stringMatch configs NUTConfigXMLPattern
       else getBestSnmpMib configs) ∧
    getBestSnmpMib configs =
      ((stringMatch configs (mibsPattern (.lit "pw"))).orElse (fun _ =>
        (stringMatch configs (mibsPattern (.lit "mge"))).orElse (fun _ =>
          stringMatch configs (mibsPattern (.plus .anyc))))) := by
  constructor
  · rw [selectBest, if_neg (by omega)]
  · cases h1 : stringMatch configs (mibsPattern (.lit "pw")) <;>
      cases h2 : stringMatch configs (mibsPattern (.lit "mge")) <;>
      cases h3 : stringMatch configs (mibsPattern (.plus .anyc)) <;>
      simp [getBestSnmpMib, snmpMibPriority, List.findSome?, h1, h2, h3,
        Option.orElse]

theorem selectBest_priority_policy_witness :
    selectBest [candPw, candMge] = some candPw := by
  rw [(selectBest_priority_policy [candPw, candMge] (by decide)).1]
  decide

/-!
## External invocations (`systemctl`, `updateNUTConfig`, `commit`)

External processes are modelled by the argument vectors handed to the
process-execution facility; a run of the reconciler produces the list of
invocations in order.  The source ignores the exit codes of these
invocations (they are only logged), so its control flow is a pure
function of the accumulator sets.
-/

/-- `NUTConfigurator::systemctl` (range overload): one batched invocation
over the whole unit range, or nothing when the range is empty. -/
def systemctl (operation : String) (units : List String) : List (List String) :=
  if units.isEmpty then []
  else [["sudo", "systemctl", operation] ++ units]

/-- `NUTConfigurator::updateNUTConfig`: the privileged regeneration
helper, invoked unconditionally. -/
def updateNUTConfig : List (List String) :=
  [["sudo", "fty-nutconfig"]]

/-- The accumulator state of `NUTConfigurator`: the `stop_drivers_` and
`start_drivers_` sets (`std::set<std::string>`, modelled as duplicate-free
lists; no claim depends on iteration order). -/
structure NUTConfigurator where
  stop_drivers_ : List String
  start_drivers_ : List String
deriving DecidableEq

/-- `NUTConfigurator::commit`: the ordered invocation trace and the
state after the accumulators are cleared. -/
def commit (st : NUTConfigurator) : List (List String) × NUTConfigurator :=
  (systemctl "disable" st.stop_drivers_
     ++ systemctl "stop" st.stop_drivers_
     ++ updateNUTConfig
     ++ systemctl "restart" st.start_drivers_
     ++ systemctl "enable" st.start_drivers_
     ++ (if !st.stop_drivers_.isEmpty || !st.start_drivers_.isEmpty
         then systemctl "reload-or-restart" ["nut-server"]
         else []),
   { stop_drivers_ := [], start_drivers_ := [] })

/-!
## `configure`

`NUTConfigurator::configure` reads external inputs (the polling-interval
config file, the asset's upsconf block and IP, the nut-scanner probing
results, and the previous on-disk file); they are collected in a
`ConfigureEnv`.  Unchecked `std::string::at` accesses are modelled in an
exception monad.  The SHA-1 digest (`s_digest`) is modelled as the hashed
content itself: the development reasons about digest equality, and content
equality is the collision-free abstraction of SHA-1 equality.
-/

/-- The C++ exceptions the embedded code can raise. -/
inductive CppException : Type where
  | outOfRange : CppException
deriving DecidableEq

deriving instance DecidableEq for Except

/-- `std::string::at`: the character at an index, or `std::out_of_range`. -/
def strAt (s : String) (i : Nat) : Except CppException Char :=
  match s.data.get? i with
  | some c => .ok c
  | none => .error .outOfRange

/-- `s_digest`, the SHA-1 content hash (modelled as the content). -/
def s_digest (content : String) : String := content

/-- External inputs of one `configure` call. -/
structure ConfigureEnv where
  /-- `nut/polling_interval` when `/etc/fty-nut/fty-nut.cfg` loads
  (`zconfig_get` supplies the default `"30"` when the key is absent). -/
  pollingKey : Option String
  /-- The asset's raw upsconf block when `have_upsconf_block()`. -/
  upsconf_block : Option String
  /-- `info.asset->IP()`. -/
  ip : String
  /-- The candidate configs accumulated by `nut_scan_snmp` /
  `nut_scan_xml_http` (external probing collaborators). -/
  scanResults : List String
  /-- Content of the device's file under `NUT_PART_STORE` when it can be
  opened for hashing, `none` otherwise. -/
  priorFile : Option String

/-- Observable outcome of one `configure` call: the returned boolean, the
content written to the device's file (if any), and the driver name
inserted into `start_drivers_` (if any). -/
structure ConfigureResult where
  ret : Bool
  written : Option String
  startInsert : Option String
deriving DecidableEq

/-- The separator-substituted remainder of an upsconf block (`UBN` in the
source): everything after the leading separator character, with every
separator occurrence replaced by a newline. -/
def ubnOf (UBA : String) (SEP : Char) : String :=
  String.mk ((UBA.data.drop 1).map (fun c => if c = SEP then '\n' else c))

/-- The candidate list built from an explicit upsconf block
(`configure`, upsconf branch): the block's first character is the
user-chosen separator; an empty block (first or second character NUL)
yields a bare device tag; otherwise the separator-substituted remainder
is the sole candidate, prefixed with a synthesized device tag unless it
already starts with `[`. -/
def upsconfConfigs (name : String) (UBA : String) : Except CppException (List String) :=
  match strAt UBA 0 with
  | .error e => .error e
  | .ok SEP =>
    if SEP = '\x00' then .ok ["[" ++ name ++ "]\n\n"]
    else
      match strAt UBA 1 with
      | .error e => .error e
      | .ok c1 =>
        if c1 = '\x00' then .ok ["[" ++ name ++ "]\n\n"]
        else
          let UBN := ubnOf UBA SEP
          match strAt UBN 0 with
          | .error e => .error e
          | .ok h =>
            if h = '[' then .ok [UBN ++ "\n"]
            else .ok ["[" ++ name ++ "]\n" ++ UBN ++ "\n"]

/-- The rendering step of `configure` (the `cfg` stringstream): the
selected candidate followed by the policy lines. -/
def render (s : String) (polling : String) : String :=
  s
  ++ (if isEpdu [s] && canSnmp [s] then "\tsynchronous = yes\n" else "")
  ++ (if canXml [s] then "\ttimeout = 15\n" else "")
  ++ (if canSnmp [s] then "\tpollfreq = " ++ polling ++ "\n"
      else "\tpollinterval = " ++ polling ++ "\n")

/-- The tail of `configure` after the candidate list is built: selection,
rendering, change detection, write and accumulator insertion. -/
def finishConfigure (name : String) (env : ConfigureEnv) (polling : String)
    (configs : List String) : ConfigureResult :=
  match selectBest configs with
  | none => { ret := false, written := none, startInsert := none }
  | some it =>
    let cfg := render it polling
    match env.priorFile with
    | none =>
        { ret := true, written := some cfg,
          startInsert := some ("nut-driver@" ++ name) }
    | some prior =>
        if s_digest prior = s_digest cfg then
          { ret := true, written := none, startInsert := none }
        else
          { ret := true, written := some cfg,
            startInsert := some ("nut-driver@" ++ name) }

/-- The candidate list `configure` works from: the upsconf block when the
asset has one, otherwise the probing results. -/
def candidatesOf (name : String) (env : ConfigureEnv) : Except CppException (List String) :=
  match env.upsconf_block with
  | some UBA => upsconfConfigs name UBA
  | none => .ok env.scanResults

/-- `NUTConfigurator::configure` (the `std::out_of_range` raised by the
unchecked `at` accesses propagates out as the error case). -/
def configure (name : String) (env : ConfigureEnv) : Except CppException ConfigureResult :=
  let polling := env.pollingKey.getD "30"
  match env.upsconf_block with
  | some UBA =>
      match upsconfConfigs name UBA with
      | .error e => .error e
      | .ok configs => .ok (finishConfigure name env polling configs)
  | none =>
      if env.ip = "" then
        .ok { ret := true, written := none, startInsert := none }
      else
        .ok (finishConfigure name env polling env.scanResults)

/-!
## Theorems about the Reconciler
-/

/-- C5: `commit` performs, in this exact order, disable of the to-stop
services, stop of the to-stop services, the configuration-regeneration
helper, restart of the to-start services, enable of the to-start
services, and a reload-or-restart of the umbrella service iff either
accumulator set was non-empty; both accumulator sets are cleared
unconditionally (the exit codes of the external invocations never enter
the control flow). -/
theorem commit_ordered_actions (st : NUTConfigurator) :
    (commit st).1 =
      systemctl "disable" st.stop_drivers_
        ++ systemctl "stop" st.stop_drivers_
        ++ updateNUTConfig
        ++ systemctl "restart" st.start_drivers_
        ++ systemctl "enable" st.start_drivers_
        ++ (if st.stop_drivers_ = [] ∧ st.start_drivers_ = [] then []
            else [["sudo", "systemctl", "reload-or-restart", "nut-server"]]) ∧
    (commit st).2 = { stop_drivers_ := [], start_drivers_ := [] } := by
  refine ⟨?_, rfl⟩
  rcases st with ⟨stop, start⟩
  cases stop <;> cases start <;> simp [commit, systemctl]

/-- C7 (recording the unchunked behaviour): `systemctl` always hands the
entire accumulated unit set to a single service-manager invocation,
however many units there are — no chunking against the argument-length
ceiling takes place. -/
theorem systemctl_single_invocation (operation : String)
    (units : List String) (h : units ≠ []) :
    systemctl operation units = [["sudo", "systemctl", operation] ++ units] := by
  cases units with
  | nil => exact absurd rfl h
  | cons u us => simp [systemctl]

theorem systemctl_single_invocation_witness :
    systemctl "stop" ["nut-driver@a", "nut-driver@b", "nut-driver@c"] =
      [["sudo", "systemctl", "stop",
        "nut-driver@a", "nut-driver@b", "nut-driver@c"]] :=
  (systemctl_single_invocation "stop"
      ["nut-driver@a", "nut-driver@b", "nut-driver@c"] (by decide)).trans rfl

/-- C10: `commit` with an empty accumulator issues no service-manager
invocation for that accumulator's verbs, skips the umbrella
reload-or-restart when both accumulators are empty, and always invokes
the privileged regeneration helper exactly once — even for a completely
empty batch. -/
theorem commit_empty_accumulators (st : NUTConfigurator) :
    (commit st).1.countP (fun a => a.get? 1 == some "fty-nutconfig") = 1 ∧
    (st.stop_drivers_ = [] →
      ∀ a ∈ (commit st).1,
        a.get? 2 ≠ some "disable" ∧ a.get? 2 ≠ some "stop") ∧
    (st.start_drivers_ = [] →
      ∀ a ∈ (commit st).1,
        a.get? 2 ≠ some "restart" ∧ a.get? 2 ≠ some "enable") ∧
    (st.stop_drivers_ = [] → st.start_drivers_ = [] →
      (commit st).1 = [["sudo", "fty-nutconfig"]]) := by
  rcases st with ⟨stop, start⟩
  cases stop <;> cases start <;>
    simp [commit, systemctl, updateNUTConfig, List.countP_append,
      List.countP_cons]

theorem commit_empty_accumulators_witness :
    (commit { stop_drivers_ := [], start_drivers_ := [] }).1 =
      [["sudo", "fty-nutconfig"]] :=
  (commit_empty_accumulators
      { stop_drivers_ := [], start_drivers_ := [] }).2.2.2 rfl rfl

/-!
## Lemmas about `finishConfigure` and `configure`
-/

/-- A text written by `finishConfigure` is the render of the candidate
`selectBest` picked. -/
theorem finishConfigure_written (name : String) (env : ConfigureEnv)
    (polling : String) (configs : List String) (cfg : String)
    (hw : (finishConfigure name env polling configs).written = some cfg) :
    ∃ sel, selectBest configs = some sel ∧ cfg = render sel polling := by
  cases hsel : selectBest configs with
  | none => simp [finishConfigure, hsel] at hw
  | some sel =>
    refine ⟨sel, rfl, ?_⟩
    cases hp : env.priorFile with
    | none =>
      simp [finishConfigure, hsel, hp] at hw
      exact hw.symm
    | some prior =>
      by_cases hd : s_digest prior = s_digest (render sel polling)
      · simp [finishConfigure, hsel, hp, hd] at hw
      · simp [finishConfigure, hsel, hp, hd] at hw
        exact hw.symm

/-- When the prior file already holds the render of the selected
candidate, `finishConfigure` writes nothing and inserts nothing. -/
theorem finishConfigure_skip (name : String) (env : ConfigureEnv)
    (polling : String) (configs : List String) (sel : String)
    (hsel : selectBest configs = some sel)
    (hp : env.priorFile = some (render sel polling)) :
    finishConfigure name env polling configs =
      { ret := true, written := none, startInsert := none } := by
  simp [finishConfigure, hsel, hp, s_digest]

/-- Every `finishConfigure` outcome writes exactly when it inserts into
the start accumulator. -/
theorem finishConfigure_written_iff_insert (name : String)
    (env : ConfigureEnv) (polling : String) (configs : List String) :
    ((finishConfigure name env polling configs).written = none ↔
      (finishConfigure name env polling configs).startInsert = none) := by
  cases hsel : selectBest configs with
  | none => simp [finishConfigure, hsel]
  | some sel =>
    cases hp : env.priorFile with
    | none => simp [finishConfigure, hsel, hp]
    | some prior =>
      by_cases hd : s_digest prior = s_digest (render sel polling)
      · simp [finishConfigure, hsel, hp, hd]
      · simp [finishConfigure, hsel, hp, hd]

/-- Control flow of `configure`: an `ok` result is either the early
no-IP return or a `finishConfigure` outcome on the built candidate
list. -/
theorem configure_ok_cases (name : String) (env : ConfigureEnv)
    (r : ConfigureResult) (hr : configure name env = .ok r) :
    (env.upsconf_block = none ∧ env.ip = "" ∧
      r = { ret := true, written := none, startInsert := none }) ∨
    (∃ cs, candidatesOf name env = .ok cs ∧
      r = finishConfigure name env (env.pollingKey.getD "30") cs) := by
  cases hub : env.upsconf_block with
  | none =>
    by_cases hip : env.ip = ""
    · left
      refine ⟨rfl, hip, ?_⟩
      simp [configure, hub, hip] at hr
      exact hr.symm
    · right
      refine ⟨env.scanResults, by simp [candidatesOf, hub], ?_⟩
      simp [configure, hub, hip] at hr
      exact hr.symm
  | some UBA =>
    right
    cases hu : upsconfConfigs name UBA with
    | error e => simp [configure, hub, hu] at hr
    | ok cs =>
      refine ⟨cs, by simp [candidatesOf, hub, hu], ?_⟩
      simp [configure, hub, hu] at hr
      exact hr.symm

/-!
## Theorems about `configure`
-/

/-- C3: `configure` writes the rendered text iff there is no readable
prior file or the two content hashes differ; the driver name enters
`start_drivers_` exactly when a write occurs; and a repeated call whose
prior file holds the text just written (same probing results, same
polling interval) writes nothing and accumulates nothing. -/
theorem configure_idempotent (name : String) (env : ConfigureEnv) :
    (∀ r, configure name env = .ok r →
      (r.written = none ↔ r.startInsert = none)) ∧
    (∀ polling configs sel, selectBest configs = some sel →
      ((finishConfigure name env polling configs).written = none ↔
        ∃ prior, env.priorFile = some prior ∧
          s_digest prior = s_digest (render sel polling))) ∧
    (∀ r cfg, configure name env = .ok r → r.written = some cfg →
      configure name { env with priorFile := some cfg } =
        .ok { ret := true, written := none, startInsert := none }) := by
  refine ⟨?_, ?_, ?_⟩
  · intro r hr
    rcases configure_ok_cases name env r hr with ⟨_, _, rfl⟩ | ⟨cs, _, rfl⟩
    · simp
    · exact finishConfigure_written_iff_insert name env _ cs
  · intro polling configs sel hsel
    cases hp : env.priorFile with
    | none => simp [finishConfigure, hsel, hp]
    | some prior =>
      by_cases hd : s_digest prior = s_digest (render sel polling)
      · simp [finishConfigure, hsel, hp, hd]
      · simp [finishConfigure, hsel, hp, hd]
  · intro r cfg hr hw
    rcases configure_ok_cases name env r hr with ⟨_, _, rfl⟩ | ⟨cs, hcs, rfl⟩
    · simp at hw
    · obtain ⟨sel, hsel, rfl⟩ :=
        finishConfigure_written name env _ cs cfg hw
      cases hub : env.upsconf_block with
      | none =>
        by_cases hip : env.ip = ""
        · simp [configure, hub, hip]
        · have hcs' : env.scanResults = cs := by
            rw [candidatesOf, hub] at hcs
            exact Except.ok.inj hcs
          simp only [configure, hub]
          rw [if_neg hip, hcs']
          rw [finishConfigure_skip name _ _ cs sel hsel rfl]
      | some UBA =>
        have hu : upsconfConfigs name UBA =
            .ok cs := by rw [candidatesOf, hub] at hcs; exact hcs
        simp only [configure, hub, hu]
        rw [finishConfigure_skip name _ _ cs sel hsel rfl]

/-- C4: text written by `configure` is the selected candidate's verbatim
text followed by the synchronous-mode line iff the candidate is
EPDU-classified and SNMP-capable, the `timeout = 15` line iff it is
XML-capable, and exactly one polling-cadence line carrying the supplied
polling interval (default `"30"`), under a `pollfreq` key when
SNMP-capable and a `pollinterval` key otherwise; it is a function of the
selected candidate and the interval alone. -/
theorem configure_rendered_text (name : String) (env : ConfigureEnv)
    (r : ConfigureResult) (cfg : String) (cs : List String) (sel : String)
    (hr : configure name env = .ok r) (hw : r.written = some cfg)
    (hcs : candidatesOf name env = .ok cs)
    (hsel : selectBest cs = some sel) :
    cfg = sel
      ++ (if isEpdu [sel] && canSnmp [sel] then "\tsynchronous = yes\n" else "")
      ++ (if canXml [sel] then "\ttimeout = 15\n" else "")
      ++ (if canSnmp [sel] then
            "\tpollfreq = " ++ env.pollingKey.getD "30" ++ "\n"
          else
            "\tpollinterval = " ++ env.pollingKey.getD "30" ++ "\n") := by
  rcases configure_ok_cases name env r hr with ⟨_, _, rfl⟩ | ⟨cs', hcs', rfl⟩
  · simp at hw
  · have hcc : cs' = cs := by
      rw [hcs] at hcs'
      exact (Except.ok.inj hcs').symm
    subst hcc
    obtain ⟨sel', hsel', rfl⟩ :=
      finishConfigure_written name env _ cs' cfg hw
    rw [hsel] at hsel'
    cases hsel'
    rfl

/-- A probing environment for a device that yields a single SNMP
candidate, with polling interval 60 and no prior file. -/
def envSnmp : ConfigureEnv :=
  { pollingKey := some "60", upsconf_block := none, ip := "10.0.0.1",
    scanResults := [candMge], priorFile := none }

theorem configure_idempotent_witness :
    configure "ups1" { envSnmp with priorFile := some (render candMge "60") } =
      .ok { ret := true, written := none, startInsert := none } :=
  (configure_idempotent "ups1" envSnmp).2.2
    { ret := true, written := some (render candMge "60"),
      startInsert := some "nut-driver@ups1" }
    (render candMge "60") (by decide) rfl

theorem configure_rendered_text_witness :
    render candMge "60" = candMge
      ++ (if isEpdu [candMge] && canSnmp [candMge] then "\tsynchronous = yes\n" else "")
      ++ (if canXml [candMge] then "\ttimeout = 15\n" else "")
      ++ (if canSnmp [candMge] then
            "\tpollfreq = " ++ envSnmp.pollingKey.getD "30" ++ "\n"
          else
            "\tpollinterval = " ++ envSnmp.pollingKey.getD "30" ++ "\n") :=
  configure_rendered_text "ups1" envSnmp
    { ret := true, written := some (render candMge "60"),
      startInsert := some "nut-driver@ups1" }
    (render candMge "60") [candMge] candMge (by decide) rfl (by decide) (by decide)

/-- An environment for a device whose asset has no upsconf block and no
IP address. -/
def noIpEnv : ConfigureEnv :=
  { pollingKey := none, upsconf_block := none, ip := "",
    scanResults := [], priorFile := none }

/-- An environment for a device with an IP address whose probing yields
no candidate at all. -/
def retryEnv : ConfigureEnv :=
  { pollingKey := none, upsconf_block := none, ip := "192.168.1.7",
    scanResults := [], priorFile := none }

/-- C6 counterexample: for a device with no usable IP address,
`configure` returns `true` — the same signal as successful configuration
— and not the `false` "not yet configured, retry later" signal the claim
predicts (it does write no partial state). -/
theorem configure_no_ip_counterexample :
    configure "dev1" noIpEnv =
      .ok { ret := true, written := none, startInsert := none } ∧
    configure "dev1" noIpEnv ≠
      .ok { ret := false, written := none, startInsert := none } := by
  decide

/-- C6 (amended): when probing yields no candidate or the Selector
returns none, `configure` returns `false` ("not yet configured, retry
later") and writes no partial state — no file write, no accumulator
insertion; a device with no usable IP address likewise writes no partial
state, but returns `true`, the same signal as success, rather than the
retry signal. -/
theorem configure_retryable_no_partial_state (name : String)
    (env : ConfigureEnv) (hub : env.upsconf_block = none) :
    (env.ip = "" →
      configure name env =
        .ok { ret := true, written := none, startInsert := none }) ∧
    (env.ip ≠ "" → selectBest env.scanResults = none →
      configure name env =
        .ok { ret := false, written := none, startInsert := none }) := by
  constructor
  · intro hip
    simp [configure, hub, hip]
  · intro hip hsel
    simp [configure, hub, hip, finishConfigure, hsel]

theorem configure_retryable_no_partial_state_witness :
    configure "dev1" noIpEnv =
      .ok { ret := true, written := none, startInsert := none } ∧
    configure "dev2" retryEnv =
      .ok { ret := false, written := none, startInsert := none } :=
  ⟨(configure_retryable_no_partial_state "dev1" noIpEnv rfl).1 rfl,
   (configure_retryable_no_partial_state "dev2" retryEnv rfl).2
     (by decide) rfl⟩

/-!
## Theorems about the upsconf override path
-/

/-- A block of length at least two whose first two characters are not NUL
takes the separator-substitution branch of `upsconfConfigs`: the
empty-block handling is not reached. -/
theorem upsconfConfigs_two_chars (name UBA : String) (SEP c1 : Char)
    (h0 : UBA.data.get? 0 = some SEP) (h1 : UBA.data.get? 1 = some c1)
    (hS : SEP ≠ '\x00') (hc : c1 ≠ '\x00') :
    upsconfConfigs name UBA =
      (if (ubnOf UBA SEP).data.head? = some '[' then
        .ok [ubnOf UBA SEP ++ "\n"]
      else .ok ["[" ++ name ++ "]\n" ++ ubnOf UBA SEP ++ "\n"]) := by
  have hA : strAt UBA 0 = .ok SEP := by unfold strAt; rw [h0]
  have hB : strAt UBA 1 = .ok c1 := by unfold strAt; rw [h1]
  obtain ⟨x, t, hU⟩ : ∃ x t, (ubnOf UBA SEP).data = x :: t := by
    rcases hd : UBA.data with _ | ⟨a, _ | ⟨b, m⟩⟩ <;> rw [hd] at h1
    · simp at h1
    · simp at h1
    · exact ⟨if b = SEP then '\n' else b,
        m.map (fun c => if c = SEP then '\n' else c), by simp [ubnOf, hd]⟩
  have hC : strAt (ubnOf UBA SEP) 0 = .ok x := by
    unfold strAt
    rw [hU]
    rfl
  simp only [upsconfConfigs, hA, hB, if_neg hS, if_neg hc, hC]
  by_cases hx : x = '['
  · rw [if_pos hx, if_pos (by simp [hU, hx])]
  · rw [if_neg hx, if_neg (by simp [hU, hx])]

/-- C8 counterexample: the override block `"A\nB=1\n"` for device
`"dev1"` does not yield the candidate `"[dev1]\nA\nB=1\n"` the claim
predicts — the block's first character `A` is consumed as the separator
and a trailing newline is appended, yielding `"[dev1]\n\nB=1\n\n"`. -/
theorem upsconf_override_counterexample :
    upsconfConfigs "dev1" "A\nB=1\n" = .ok ["[dev1]\n\nB=1\n\n"] ∧
    ("[dev1]\n\nB=1\n\n" : String) ≠ "[dev1]\nA\nB=1\n" := by
  decide

/-- C8 (amended): for a block of length at least two with no NUL among
its first two characters, the block's first character is the separator
and is consumed; the remainder with every separator occurrence replaced
by a newline (`UBN`) is used as the sole candidate with a trailing
newline appended: a `UBN` not starting with `[` gets a bracketed
device-tag header synthesized from the device name (candidate
`"[name]\n" ++ UBN ++ "\n"`), and a `UBN` already starting with `[` is
passed through as `UBN ++ "\n"`. -/
theorem upsconf_override_block (name UBA : String) (SEP c1 : Char)
    (h0 : UBA.data.get? 0 = some SEP) (h1 : UBA.data.get? 1 = some c1)
    (hS : SEP ≠ '\x00') (hc : c1 ≠ '\x00') :
    ((ubnOf UBA SEP).data.head? = some '[' →
      upsconfConfigs name UBA = .ok [ubnOf UBA SEP ++ "\n"]) ∧
    ((ubnOf UBA SEP).data.head? ≠ some '[' →
      upsconfConfigs name UBA =
        .ok ["[" ++ name ++ "]\n" ++ ubnOf UBA SEP ++ "\n"]) := by
  have h := upsconfConfigs_two_chars name UBA SEP c1 h0 h1 hS hc
  constructor <;> intro hh
  · rw [h, if_pos hh]
  · rw [h, if_neg hh]

theorem upsconf_override_block_witness :
    upsconfConfigs "dev1" "\nA\nB=1" = .ok ["[dev1]\nA\nB=1\n"] := by
  rw [(upsconf_override_block "dev1" "\nA\nB=1" '\n' 'A' rfl rfl
    (by decide) (by decide)).2 (by decide)]
  rfl

/-- C9: a device whose asset supplies an upsconf block shorter than two
characters containing no NUL (the empty string, or a single ordinary
character) makes `configure` raise `std::out_of_range` from the
unchecked `std::string::at` accesses instead of returning a
success/retry boolean; and when the first two characters exist and are
not NUL, the result always comes from the separator-substitution branch,
so the empty-block handling is only reached when the block's first or
second character is NUL. -/
theorem upsconf_short_block_throws (name UBA : String)
    (h0 : UBA.data.get? 0 ≠ some '\x00')
    (h1 : UBA.data.get? 1 ≠ some '\x00') :
    (UBA.length < 2 → upsconfConfigs name UBA = .error .outOfRange) ∧
    (UBA.length < 2 → ∀ env : ConfigureEnv, env.upsconf_block = some UBA →
      configure name env = .error .outOfRange) ∧
    (∀ SEP c1, UBA.data.get? 0 = some SEP → UBA.data.get? 1 = some c1 →
      upsconfConfigs name UBA =
        (if (ubnOf UBA SEP).data.head? = some '[' then
          .ok [ubnOf UBA SEP ++ "\n"]
        else .ok ["[" ++ name ++ "]\n" ++ ubnOf UBA SEP ++ "\n"])) := by
  have hshort : UBA.length < 2 → upsconfConfigs name UBA = .error .outOfRange := by
    intro hlen
    rcases hd : UBA.data with _ | ⟨a, _ | ⟨b, m⟩⟩
    · simp [upsconfConfigs, strAt, hd]
    · have ha : ¬(a = '\x00') := by
        intro hz
        exact h0 (by rw [hd, hz]; rfl)
      simp [upsconfConfigs, strAt, hd, ha]
    · exfalso
      have : UBA.length = UBA.data.length := rfl
      rw [this, hd] at hlen
      simp at hlen
      omega
  refine ⟨hshort, ?_, ?_⟩
  · intro hlen env hub
    simp [configure, hub, hshort hlen]
  · intro SEP c1 hg0 hg1
    exact upsconfConfigs_two_chars name UBA SEP c1 hg0 hg1
      (fun hz => h0 (hz ▸ hg0)) (fun hz => h1 (hz ▸ hg1))

/-- An environment whose asset supplies the single-character upsconf
block `"x"`. -/
def shortBlockEnv : ConfigureEnv :=
  { pollingKey := none, upsconf_block := some "x", ip := "",
    scanResults := [], priorFile := none }

theorem upsconf_short_block_throws_witness :
    configure "dev1" shortBlockEnv = .error .outOfRange :=
  (upsconf_short_block_throws "dev1" "x" (by decide) (by decide)).2.1
    (by decide) shortBlockEnv rfl

end FtyNut
